import Mathlib

/-!
Verification development for the IGDB game-data dashboard (`src/app.py`).

The embedding models the filter/sort/paginate core of the dashboard:

* `GameRecord` mirrors the row schema selected by `load_full_dataset`
  (`id, name, cover_url, rating, rating_count, igdb_url, first_release_date,
  hypes, dlt_load_timestamp`).  The `rating` column is nullable (`Option ℚ`);
  dates and timestamps are modelled as integers (any linearly ordered
  representation of calendar dates suffices for the comparisons performed).
* Polars `Series.str.contains(pattern)` interprets `pattern` as a regular
  expression (its `literal` flag defaults to `False`).  We model the fragment
  of regex syntax consisting of literal characters and the `.` wildcard
  (which in the Rust regex engine matches any character except a newline);
  a pattern containing any other regex metacharacter is outside the model and
  `regexParse` returns `none` for it.
* Polars `DataFrame.sort` is called without `maintain_order=True`; its
  documented contract only promises a permutation of the rows that is sorted
  on the key column, with no guarantee on the relative order of equal keys.
  `PolarsSortOutput` is that contract, so `filter_data` and
  `filter_upcoming_data` are relations between inputs and admissible outputs.
* `filter_upcoming_data` reads `date.today()`; the current date is made an
  explicit `today` argument of the model.
-/

/-- Row schema of the `games_dashboard` table as selected in
`load_full_dataset` (src/app.py line 24).  `rating` is nullable;
`first_release_date` and `dlt_load_timestamp` are represented by integers
ordered like calendar dates/timestamps. -/
structure GameRecord where
  id : Int
  name : String
  cover_url : String
  rating : Option ℚ
  rating_count : Nat
  igdb_url : String
  first_release_date : Int
  hypes : Nat
  dlt_load_timestamp : Int
deriving DecidableEq, Repr

/-- Character-wise ASCII lowercasing, the common behaviour of Python
`str.lower` and polars `str.to_lowercase` on the ASCII fragment. -/
def lowerChars (s : String) : List Char :=
  s.data.map Char.toLower

/-- String-valued version of `lowerChars`, modelling `search.lower()`. -/
def strLower (s : String) : String :=
  String.mk (lowerChars s)

/-- Token of the modelled regular-expression fragment: a literal character
or the `.` wildcard. -/
inductive RTok where
  | lit (c : Char)
  | dot
deriving DecidableEq, Repr

/-- Regex metacharacters other than `.`; patterns containing one of these are
outside the modelled fragment. -/
def rexMetachars : List Char :=
  ['\\', '*', '+', '?', '(', ')', '[', ']', '|', '^', '$', '\x7b', '\x7d']

/-- Translate one pattern character into a token of the modelled fragment
(`none` if it is an unmodelled metacharacter). -/
def regexParseTok (c : Char) : Option RTok :=
  if c ∈ rexMetachars then none
  else if c = '.' then some RTok.dot
  else some (RTok.lit c)

/-- Translate a pattern string into the modelled regex fragment; `none` when
the pattern uses regex syntax beyond literal characters and `.`. -/
def regexParse (s : String) : Option (List RTok) :=
  s.data.mapM regexParseTok

/-- Match a token list against a prefix of the character list.  `.` matches
any character except a newline, as in the Rust regex engine used by polars. -/
def rmatchAt : List RTok → List Char → Bool
  | [], _ => true
  | _ :: _, [] => false
  | RTok.lit c :: ps, x :: xs => decide (x = c) && rmatchAt ps xs
  | RTok.dot :: ps, x :: xs => decide (x ≠ '\n') && rmatchAt ps xs

/-- Search for a match of the token list anywhere in the character list —
the semantics of polars `str.contains` on the modelled fragment. -/
def regexFind (pat : List RTok) : List Char → Bool
  | [] => rmatchAt pat []
  | x :: xs => rmatchAt pat (x :: xs) || regexFind pat (xs)

/-- Row predicate of `filter_data` (src/app.py lines 45–50): title contains
the pattern (case folded on both sides), rating within the inclusive range,
rating count at least the minimum.  A null rating fails both range
comparisons, exactly as the null comparisons do under polars filtering. -/
def popularRowPred (pat : List RTok) (rmin rmax : ℚ) (min_count : Nat)
    (r : GameRecord) : Bool :=
  regexFind pat (lowerChars r.name)
    && (match r.rating with
        | some v => decide (rmin ≤ v)
        | none => false)
    && (match r.rating with
        | some v => decide (v ≤ rmax)
        | none => false)
    && decide (min_count ≤ r.rating_count)

/-- Row predicate of `filter_upcoming_data` (src/app.py lines 59–64):
release date strictly after `today`, title contains the pattern, hypes within
the inclusive range. -/
def upcomingRowPred (today : Int) (pat : List RTok) (min_hypes max_hypes : Nat)
    (r : GameRecord) : Bool :=
  decide (today < r.first_release_date)
    && regexFind pat (lowerChars r.name)
    && decide (min_hypes ≤ r.hypes)
    && decide (r.hypes ≤ max_hypes)

/-- Ascending comparison on the nullable `rating` column (polars places nulls
first on an ascending sort; no null rating can reach the sort inside
`filter_data`, because the rating-range predicate already drops null
ratings). -/
def ratingLeB : Option ℚ → Option ℚ → Bool
  | none, _ => true
  | some _, none => false
  | some a, some b => decide (a ≤ b)

/-- Ascending key comparison of `filtered.sort(sort_by)` in `filter_data`
(src/app.py lines 51–54).  The sort-key selector offers exactly
`"rating_count"` and `"rating"` (line 159); the model decides between those
two columns. -/
def popularSortLeB (sort_by : String) (a b : GameRecord) : Bool :=
  if sort_by = "rating" then ratingLeB a.rating b.rating
  else decide (a.rating_count ≤ b.rating_count)

/-- Ascending key comparison of the sort in `filter_upcoming_data`
(src/app.py lines 66–71): `"Release Date"` sorts on the release date, any
other value sorts on hypes, mirroring the source's if/else. -/
def upcomingSortLeB (sort_by : String) (a b : GameRecord) : Bool :=
  if sort_by = "Release Date" then decide (a.first_release_date ≤ b.first_release_date)
  else decide (a.hypes ≤ b.hypes)

/-- Direction-adjusted comparison: `descending=True` reverses the key
order. -/
def dirLe (le : GameRecord → GameRecord → Bool) (descending : Bool)
    (a b : GameRecord) : Bool :=
  if descending then le b a else le a b

/-- Documented contract of polars `DataFrame.sort` without
`maintain_order=True`: the output is a permutation of the input that is
sorted on the key in the requested direction.  The relative order of rows
with equal keys is not constrained. -/
def PolarsSortOutput (le : GameRecord → GameRecord → Bool) (descending : Bool)
    (input output : List GameRecord) : Prop :=
  input.Perm output ∧ List.Sorted (fun a b => dirLe le descending a b = true) output

/-- `filter_data` (src/app.py lines 43–55) as an input/output relation:
`out` is an admissible result of
`filter_data(df, search, rating_range, min_count, sort_by, order)`.
The search string is lowercased (`search.lower()`) and handed to polars
`str.contains` as a regex; the rows passing the predicate are sorted
ascending when `order == "ASC"`, descending otherwise. -/
def filter_data (df : List GameRecord) (search : String) (rating_range : ℚ × ℚ)
    (min_count : Nat) (sort_by : String) (order : String)
    (out : List GameRecord) : Prop :=
  ∃ pat, regexParse (strLower search) = some pat ∧
    PolarsSortOutput (popularSortLeB sort_by) (if order = "ASC" then false else true)
      (df.filter (popularRowPred pat rating_range.1 rating_range.2 min_count)) out

/-- `filter_upcoming_data` (src/app.py lines 57–71) as an input/output
relation; `today` is the value of `date.today()` at call time. -/
def filter_upcoming_data (df : List GameRecord) (search : String)
    (min_hypes max_hypes : Nat) (sort_by : String) (order : String)
    (today : Int) (out : List GameRecord) : Prop :=
  ∃ pat, regexParse (strLower search) = some pat ∧
    PolarsSortOutput (upcomingSortLeB sort_by) (if order = "Descending" then true else false)
      (df.filter (upcomingRowPred today pat min_hypes max_hypes)) out

/-- Fixed page size `ROWS_PER_PAGE` (src/app.py line 13). -/
def ROWS_PER_PAGE : Nat := 20

/-- `paginate` (src/app.py lines 73–75): `df.slice((page-1)*rows_per_page,
rows_per_page)`, i.e. drop the rows before the page and take one page. -/
def paginate (df : List GameRecord) (page : Nat) (rows_per_page : Nat) :
    List GameRecord :=
  (df.drop ((page - 1) * rows_per_page)).take rows_per_page

/-- Page count `max(1, math.ceil(total_games / ROWS_PER_PAGE))`
(src/app.py lines 186 and 241, with `rows_per_page` left generic); on
naturals `math.ceil` of the exact quotient is
`(total_games + rows_per_page - 1) / rows_per_page`. -/
def total_pages (total_games : Nat) (rows_per_page : Nat) : Nat :=
  max 1 ((total_games + rows_per_page - 1) / rows_per_page)

/-- Initialisation of the per-view page state (src/app.py lines 192–193 and
248–249): absent state starts at page 1, existing state is kept. -/
def pageInit : Option Nat → Nat
  | none => 1
  | some p => p

/-- Effect of a click of the "Previous" button (src/app.py lines 198–199 and
254–255): decrement only while the page is above 1. -/
def prevClick (page : Nat) : Nat :=
  if 1 < page then page - 1 else page

/-- Effect of a click of the "Next" button (src/app.py lines 201–202 and
257–258): increment only while the page is below the page count. -/
def nextClick (total : Nat) (page : Nat) : Nat :=
  if page < total then page + 1 else page

/-- One rerun of the page-number logic of a view (src/app.py lines 192–202
for the popular view, 248–258 for the upcoming view): initialise missing
state, then apply the button handlers.  A rerun caused by a filter-widget
change has both `prevClicked` and `nextClicked` false, and `total` is the
page count of the newly filtered frame.  No branch of the source writes the
page number on a filter change. -/
def popularRerunPage (state : Option Nat) (prevClicked nextClicked : Bool)
    (total : Nat) : Nat :=
  let p0 := pageInit state
  let p1 := if prevClicked then prevClick p0 else p0
  if nextClicked then nextClick total p1 else p1

/-- States of the page-navigation machine of one view reachable from the
initial page by "Previous"/"Next" clicks, for a fixed page count. -/
inductive PageReachable (total : Nat) : Nat → Prop
  | init : PageReachable total (pageInit none)
  | prev {p : Nat} : PageReachable total p → PageReachable total (prevClick p)
  | next {p : Nat} : PageReachable total p → PageReachable total (nextClick total p)

/-- Modelled from the spec: "case-insensitive substring match of `search`
against title", with simple lowercase folding.  This is the specification
side of the refinement comparison for the search predicate; the source side
is polars regex containment (`regexFind`). -/
def listPrefixOf : List Char → List Char → Bool
  | [], _ => true
  | _ :: _, [] => false
  | a :: as, b :: bs => decide (a = b) && listPrefixOf as bs

/-- Modelled from the spec: substring occurrence used by `specContainsCI`. -/
def listInfixOf (needle : List Char) : List Char → Bool
  | [] => listPrefixOf needle []
  | b :: bs => listPrefixOf needle (b :: bs) || listInfixOf needle bs

/-- Modelled from the spec: the spec's search predicate — the lowercased
search string occurs as a contiguous substring of the lowercased title. -/
def specContainsCI (search title : String) : Bool :=
  listInfixOf (lowerChars search) (lowerChars title)

/-! ### Helper lemmas -/

/-- A permutation between two lists sorted by the same relation, antisymmetric
on the elements involved, forces the lists to be equal. -/
theorem sorted_perm_eq {α : Type} {R : α → α → Prop} :
    ∀ l₁ l₂ : List α, l₁.Perm l₂ → List.Sorted R l₁ → List.Sorted R l₂ →
      (∀ a ∈ l₁, ∀ b ∈ l₁, R a b → R b a → a = b) → l₁ = l₂ := by
  intro l₁
  induction l₁ with
  | nil =>
    intro l₂ hperm _ _ _
    exact hperm.symm.eq_nil.symm
  | cons a t₁ ih =>
    intro l₂ hperm hs₁ hs₂ hanti
    cases l₂ with
    | nil => exact (List.cons_ne_nil a t₁ hperm.eq_nil).elim
    | cons b t₂ =>
      have hab : a = b := by
        have ha2 : a ∈ b :: t₂ := hperm.mem_iff.mp (List.mem_cons_self a t₁)
        have hb1 : b ∈ a :: t₁ := hperm.mem_iff.mpr (List.mem_cons_self b t₂)
        rcases List.mem_cons.mp ha2 with h | ha2'
        · exact h
        rcases List.mem_cons.mp hb1 with h | hb1'
        · exact h.symm
        have hRab : R a b := (List.sorted_cons.mp hs₁).1 b hb1'
        have hRba : R b a := (List.sorted_cons.mp hs₂).1 a ha2'
        exact hanti a (List.mem_cons_self a t₁) b hb1 hRab hRba
      subst hab
      have hperm' : t₁.Perm t₂ := hperm.cons_inv
      have ht := ih t₂ hperm' (List.sorted_cons.mp hs₁).2 (List.sorted_cons.mp hs₂).2
        (fun x hx y hy => hanti x (List.mem_cons_of_mem a hx) y (List.mem_cons_of_mem a hy))
      rw [ht]

/-- Concatenating the first `n` pages of a list recovers its first
`n * rows` elements. -/
theorem paginate_flatten_range (l : List GameRecord) (rows : Nat) :
    ∀ n : Nat, ((List.range n).map (fun i => paginate l (i + 1) rows)).flatten
      = l.take (n * rows) := by
  intro n
  induction n with
  | zero => simp
  | succ n ih =>
    rw [List.range_succ, List.map_append, List.flatten_append, ih]
    simp only [List.map_cons, List.map_nil, List.flatten_cons, List.flatten_nil,
      List.append_nil]
    unfold paginate
    have h1 : n + 1 - 1 = n := by omega
    rw [h1, ← List.take_add]
    congr 1
    ring

/-- The page count of `total_pages` covers every element: `count` is at most
`total_pages count rows * rows` whenever `rows ≥ 1`. -/
theorem length_le_total_pages_mul (n rows : Nat) (hr : 1 ≤ rows) :
    n ≤ total_pages n rows * rows := by
  rcases Nat.eq_zero_or_pos n with h0 | hpos
  · exact le_trans (le_of_eq h0) (Nat.zero_le _)
  · have hle : n ≤ ((n + rows - 1) / rows) * rows := by
      by_contra hlt
      push_neg at hlt
      have h3 : ((n + rows - 1) / rows) * rows ≤ n - 1 := Nat.le_pred_of_lt hlt
      have h4 : ((n + rows - 1) / rows) * rows + rows ≤ n - 1 + rows :=
        Nat.add_le_add_right h3 rows
      have h2 : ((n + rows - 1) / rows + 1) * rows ≤ n + rows - 1 := by
        calc ((n + rows - 1) / rows + 1) * rows
            = ((n + rows - 1) / rows) * rows + rows := by ring
          _ ≤ n - 1 + rows := h4
          _ = n + rows - 1 := by omega
      have h6 : (n + rows - 1) / rows + 1 ≤ (n + rows - 1) / rows :=
        (Nat.le_div_iff_mul_le (show 0 < rows by omega)).mpr h2
      exact Nat.not_succ_le_self _ h6
    calc n ≤ ((n + rows - 1) / rows) * rows := hle
      _ ≤ max 1 ((n + rows - 1) / rows) * rows :=
          Nat.mul_le_mul_right rows (le_max_right _ _)

/-- Pages reachable by the navigation buttons stay between 1 and the page
count, provided the page count is at least 1. -/
theorem pageReachable_bounds (total : Nat) (ht : 1 ≤ total) :
    ∀ p, PageReachable total p → 1 ≤ p ∧ p ≤ total := by
  intro p h
  induction h with
  | init => exact ⟨le_refl 1, ht⟩
  | prev _ ih => unfold prevClick; split <;> omega
  | next _ ih => unfold nextClick; split <;> omega

/-! ### Claim theorems -/

/-- C5: for every sequence and every page number at least 1, `paginate` with
page size 20 returns exactly the slice of the sequence from index
`(page-1)*20` (inclusive) to `page*20` (exclusive), clipped to the
sequence's bounds, and when the page number exceeds the number of available
pages it returns the empty sequence (it is a total function, so it cannot
error). -/
theorem paginate_slice_spec (l : List GameRecord) (p : Nat) (hp : 1 ≤ p) :
    paginate l p 20 = (l.take (p * 20)).drop ((p - 1) * 20)
    ∧ (total_pages l.length 20 < p → paginate l p 20 = []) := by
  constructor
  · unfold paginate
    have h : p * 20 = (p - 1) * 20 + 20 := by omega
    rw [h, ← List.take_drop ((p - 1) * 20) 20 l]
  · intro hlt
    unfold paginate
    have hlen : l.length ≤ (p - 1) * 20 := by
      unfold total_pages at hlt
      omega
    rw [List.drop_eq_nil_of_le hlen]
    rfl

/-- C5 witness: `paginate` at a concrete page number. -/
theorem paginate_slice_spec_witness :
    1 ≤ 2
    ∧ (paginate [] 2 20 = (List.take (2 * 20) []).drop ((2 - 1) * 20)
      ∧ (total_pages (List.length ([] : List GameRecord)) 20 < 2 → paginate [] 2 20 = [])) :=
  ⟨by decide, paginate_slice_spec [] 2 (by decide)⟩

/-- C6: for every count, the page count with page size 20 is
`max 1 ⌈count/20⌉`, and in particular `total_pages 0 20 = 1`,
`total_pages 20 20 = 1` and `total_pages 21 20 = 2`. -/
theorem total_pages_spec : ∀ count : Nat,
    ((total_pages count 20 : Nat) : ℤ) = max 1 ⌈(count : ℚ) / 20⌉
    ∧ total_pages 0 20 = 1 ∧ total_pages 20 20 = 1 ∧ total_pages 21 20 = 2 := by
  intro n
  refine ⟨?_, by decide, by decide, by decide⟩
  have hub : n ≤ 20 * ((n + 19) / 20) := by omega
  have hlb : 20 * ((n + 19) / 20) < n + 20 := by omega
  have hceil : ⌈(n : ℚ) / 20⌉ = (((n + 19) / 20 : Nat) : ℤ) := by
    set q : Nat := (n + 19) / 20 with hq
    have hcast : (((q : Nat) : ℤ) : ℚ) = (q : ℚ) := by push_cast; ring
    rw [Int.ceil_eq_iff]
    constructor
    · rw [hcast, lt_div_iff₀ (by norm_num : (0 : ℚ) < 20)]
      have hlb' : (20 * q : ℚ) < (n : ℚ) + 20 := by exact_mod_cast hlb
      linarith
    · rw [hcast, div_le_iff₀ (by norm_num : (0 : ℚ) < 20)]
      have hub' : (n : ℚ) ≤ (20 * q : ℚ) := by exact_mod_cast hub
      linarith
  rw [hceil]
  unfold total_pages
  have h19 : n + 20 - 1 = n + 19 := by omega
  rw [h19, Nat.cast_max]
  norm_num

/-- C7: for every sequence and every page size at least 1, `paginate` never
returns more than `rows` records, and concatenating the pages
`1, …, total_pages` in order yields exactly the original sequence. -/
theorem paginate_partition (l : List GameRecord) (rows : Nat) (hr : 1 ≤ rows) :
    (∀ p : Nat, (paginate l p rows).length ≤ rows)
    ∧ ((List.range (total_pages l.length rows)).map
        (fun i => paginate l (i + 1) rows)).flatten = l := by
  constructor
  · intro p
    unfold paginate
    rw [List.length_take]
    exact min_le_left _ _
  · rw [paginate_flatten_range]
    exact List.take_of_length_le (length_le_total_pages_mul l.length rows hr)

/-- C7 witness: a concrete three-element sequence with page size 2 splits
into two pages whose concatenation is the sequence. -/
theorem paginate_partition_witness :
    1 ≤ 2
    ∧ ((∀ p : Nat, (paginate [⟨1, "a", "", none, 0, "", 0, 0, 0⟩,
          ⟨2, "b", "", none, 0, "", 0, 0, 0⟩,
          ⟨3, "c", "", none, 0, "", 0, 0, 0⟩] p 2).length ≤ 2)
      ∧ ((List.range (total_pages (List.length [(⟨1, "a", "", none, 0, "", 0, 0, 0⟩ : GameRecord),
          ⟨2, "b", "", none, 0, "", 0, 0, 0⟩,
          ⟨3, "c", "", none, 0, "", 0, 0, 0⟩]) 2)).map
          (fun i => paginate [⟨1, "a", "", none, 0, "", 0, 0, 0⟩,
            ⟨2, "b", "", none, 0, "", 0, 0, 0⟩,
            ⟨3, "c", "", none, 0, "", 0, 0, 0⟩] (i + 1) 2)).flatten
        = [⟨1, "a", "", none, 0, "", 0, 0, 0⟩,
          ⟨2, "b", "", none, 0, "", 0, 0, 0⟩,
          ⟨3, "c", "", none, 0, "", 0, 0, 0⟩]) :=
  ⟨by decide, paginate_partition _ 2 (by decide)⟩

/-- C8: for a view with a fixed page count of at least 1, the navigation
state machine starts at page 1, a "Previous" click maps a page `p ≥ 1` to
`max 1 (p-1)`, a "Next" click maps any reachable page to
`min total (p+1)`, every reachable page is at least 1, and a "Next" click on
the last page leaves the page unchanged. -/
theorem page_nav_spec (total : Nat) (ht : 1 ≤ total) :
    pageInit none = 1
    ∧ (∀ p, 1 ≤ p → prevClick p = max 1 (p - 1))
    ∧ (∀ p, PageReachable total p → nextClick total p = min total (p + 1))
    ∧ (∀ p, PageReachable total p → 1 ≤ p)
    ∧ nextClick total total = total := by
  refine ⟨rfl, ?_, ?_, ?_, ?_⟩
  · intro p hp
    unfold prevClick
    split <;> omega
  · intro p hreach
    have hb := pageReachable_bounds total ht p hreach
    unfold nextClick
    split <;> omega
  · intro p hreach
    exact (pageReachable_bounds total ht p hreach).1
  · unfold nextClick
    simp

/-- C8 witness: the navigation machine with a page count of 2. -/
theorem page_nav_spec_witness :
    1 ≤ 2
    ∧ (pageInit none = 1
      ∧ (∀ p, 1 ≤ p → prevClick p = max 1 (p - 1))
      ∧ (∀ p, PageReachable 2 p → nextClick 2 p = min 2 (p + 1))
      ∧ (∀ p, PageReachable 2 p → 1 ≤ p)
      ∧ nextClick 2 2 = 2) :=
  ⟨by decide, page_nav_spec 2 (by decide)⟩

/-- C3 (code bug): a rerun triggered by a filter-widget change (no button
clicked) leaves the stored page number untouched — starting from page 3 it
stays 3 for every page count of the newly filtered data, whereas the claim
requires it to become 1.  No branch of src/app.py lines 183–206 or 231–260
resets `st.session_state.page_num` or `st.session_state.upcoming_page_num`
when a filter parameter changes. -/
theorem filter_change_keeps_page : ∀ total : Nat,
    popularRerunPage (some 3) false false total = 3 := by
  intro total
  rfl

/-- C1 counterexample: with the search string `"."` the record titled `"ab"`
is returned by `filter_data` under the widest rating filters, although `"."`
is not a case-insensitive substring of `"ab"` — polars `str.contains` treats
the search string as a regular expression, so `.` matches any character. -/
theorem filter_data_regex_cex :
    filter_data [⟨1, "ab", "", some 50, 5, "", 0, 0, 0⟩] "." (0, 100) 0
      "rating_count" "ASC" [⟨1, "ab", "", some 50, 5, "", 0, 0, 0⟩]
    ∧ specContainsCI "." "ab" = false :=
  ⟨⟨[RTok.dot], by decide, by decide, by decide⟩, by decide⟩

/-- C1 (amended): whenever the lowercased search string stays inside the
modelled regex fragment, a record appears in an output of `filter_data` iff
it appears in the snapshot, the lowercased search — read as a regular
expression, as polars `str.contains` does — matches within the lowercased
title (the empty search matches every record), its rating is non-null and
lies in the inclusive range, and its rating count is at least the
minimum. -/
theorem filter_data_membership
    (df : List GameRecord) (search : String) (rmin rmax : ℚ) (min_count : Nat)
    (sort_by order : String) (out : List GameRecord) (pat : List RTok)
    (r : GameRecord)
    (hpat : regexParse (strLower search) = some pat)
    (hout : filter_data df search (rmin, rmax) min_count sort_by order out) :
    r ∈ out ↔ r ∈ df ∧ regexFind pat (lowerChars r.name) = true
      ∧ (∃ v, r.rating = some v ∧ rmin ≤ v ∧ v ≤ rmax)
      ∧ min_count ≤ r.rating_count := by
  obtain ⟨pat', hpat', hperm, hsort⟩ := hout
  rw [hpat] at hpat'
  injection hpat' with hpe
  subst hpe
  rw [← hperm.mem_iff, List.mem_filter]
  have hpred : popularRowPred pat rmin rmax min_count r = true ↔
      (regexFind pat (lowerChars r.name) = true
        ∧ (∃ v, r.rating = some v ∧ rmin ≤ v ∧ v ≤ rmax)
        ∧ min_count ≤ r.rating_count) := by
    cases hr : r.rating with
    | none => simp [popularRowPred, hr]
    | some v => simp [popularRowPred, hr, and_assoc]
  rw [hpred]

/-- C1 witness: a two-record snapshot searched for `"ha"`. -/
theorem filter_data_membership_witness :
    regexParse (strLower "ha") = some [RTok.lit 'h', RTok.lit 'a']
    ∧ filter_data [⟨1, "Halo", "", some 90, 10, "", 0, 0, 0⟩,
        ⟨2, "Gex", "", some 80, 3, "", 0, 0, 0⟩] "ha" (0, 100) 0
        "rating_count" "ASC" [⟨1, "Halo", "", some 90, 10, "", 0, 0, 0⟩]
    ∧ ((⟨1, "Halo", "", some 90, 10, "", 0, 0, 0⟩ : GameRecord)
        ∈ [(⟨1, "Halo", "", some 90, 10, "", 0, 0, 0⟩ : GameRecord)]
      ↔ (⟨1, "Halo", "", some 90, 10, "", 0, 0, 0⟩ : GameRecord)
          ∈ [(⟨1, "Halo", "", some 90, 10, "", 0, 0, 0⟩ : GameRecord),
            ⟨2, "Gex", "", some 80, 3, "", 0, 0, 0⟩]
        ∧ regexFind [RTok.lit 'h', RTok.lit 'a']
            (lowerChars (⟨1, "Halo", "", some 90, 10, "", 0, 0, 0⟩ : GameRecord).name) = true
        ∧ (∃ v, (⟨1, "Halo", "", some 90, 10, "", 0, 0, 0⟩ : GameRecord).rating = some v
            ∧ 0 ≤ v ∧ v ≤ 100)
        ∧ 0 ≤ (⟨1, "Halo", "", some 90, 10, "", 0, 0, 0⟩ : GameRecord).rating_count) :=
  have hp : regexParse (strLower "ha") = some [RTok.lit 'h', RTok.lit 'a'] := by decide
  have hf : filter_data [⟨1, "Halo", "", some 90, 10, "", 0, 0, 0⟩,
      ⟨2, "Gex", "", some 80, 3, "", 0, 0, 0⟩] "ha" (0, 100) 0
      "rating_count" "ASC" [⟨1, "Halo", "", some 90, 10, "", 0, 0, 0⟩] :=
    ⟨[RTok.lit 'h', RTok.lit 'a'], by decide, by decide, by decide⟩
  ⟨hp, hf, filter_data_membership _ "ha" 0 100 0 "rating_count" "ASC" _ _ _ hp hf⟩

/-- C2 counterexample: with the search string `"."` a future-dated record
titled `"cd"` is returned by `filter_upcoming_data`, although `"."` is not a
case-insensitive substring of `"cd"` — the search string is interpreted as a
regular expression. -/
theorem filter_upcoming_regex_cex :
    filter_upcoming_data [⟨3, "cd", "", some 70, 2, "", 100, 4, 0⟩] "." 0 10
      "Hypes" "Ascending" 0 [⟨3, "cd", "", some 70, 2, "", 100, 4, 0⟩]
    ∧ specContainsCI "." "cd" = false :=
  ⟨⟨[RTok.dot], by decide, by decide, by decide⟩, by decide⟩

/-- C2 (amended): whenever the lowercased search string stays inside the
modelled regex fragment, a record appears in an output of
`filter_upcoming_data` iff it appears in the snapshot, its release date is
strictly after the current date, the lowercased search — read as a regular
expression, as polars `str.contains` does — matches within the lowercased
title, and its hype count lies in the inclusive range. -/
theorem filter_upcoming_membership
    (df : List GameRecord) (search : String) (min_hypes max_hypes : Nat)
    (sort_by order : String) (today : Int) (out : List GameRecord)
    (pat : List RTok) (r : GameRecord)
    (hpat : regexParse (strLower search) = some pat)
    (hout : filter_upcoming_data df search min_hypes max_hypes sort_by order today out) :
    r ∈ out ↔ r ∈ df ∧ today < r.first_release_date
      ∧ regexFind pat (lowerChars r.name) = true
      ∧ min_hypes ≤ r.hypes ∧ r.hypes ≤ max_hypes := by
  obtain ⟨pat', hpat', hperm, hsort⟩ := hout
  rw [hpat] at hpat'
  injection hpat' with hpe
  subst hpe
  rw [← hperm.mem_iff, List.mem_filter]
  have hpred : upcomingRowPred today pat min_hypes max_hypes r = true ↔
      (today < r.first_release_date
        ∧ regexFind pat (lowerChars r.name) = true
        ∧ min_hypes ≤ r.hypes ∧ r.hypes ≤ max_hypes) := by
    simp [upcomingRowPred, and_assoc]
  rw [hpred]

/-- C2 witness: a one-record snapshot of a future release searched for
`"c"`. -/
theorem filter_upcoming_membership_witness :
    regexParse (strLower "c") = some [RTok.lit 'c']
    ∧ filter_upcoming_data [⟨3, "cd", "", some 70, 2, "", 100, 4, 0⟩] "c" 0 10
        "Hypes" "Ascending" 0 [⟨3, "cd", "", some 70, 2, "", 100, 4, 0⟩]
    ∧ ((⟨3, "cd", "", some 70, 2, "", 100, 4, 0⟩ : GameRecord)
        ∈ [(⟨3, "cd", "", some 70, 2, "", 100, 4, 0⟩ : GameRecord)]
      ↔ (⟨3, "cd", "", some 70, 2, "", 100, 4, 0⟩ : GameRecord)
          ∈ [(⟨3, "cd", "", some 70, 2, "", 100, 4, 0⟩ : GameRecord)]
        ∧ (0 : Int) < (⟨3, "cd", "", some 70, 2, "", 100, 4, 0⟩ : GameRecord).first_release_date
        ∧ regexFind [RTok.lit 'c']
            (lowerChars (⟨3, "cd", "", some 70, 2, "", 100, 4, 0⟩ : GameRecord).name) = true
        ∧ 0 ≤ (⟨3, "cd", "", some 70, 2, "", 100, 4, 0⟩ : GameRecord).hypes
        ∧ (⟨3, "cd", "", some 70, 2, "", 100, 4, 0⟩ : GameRecord).hypes ≤ 10) :=
  have hp : regexParse (strLower "c") = some [RTok.lit 'c'] := by decide
  have hf : filter_upcoming_data [⟨3, "cd", "", some 70, 2, "", 100, 4, 0⟩] "c" 0 10
      "Hypes" "Ascending" 0 [⟨3, "cd", "", some 70, 2, "", 100, 4, 0⟩] :=
    ⟨[RTok.lit 'c'], by decide, by decide, by decide⟩
  ⟨hp, hf, filter_upcoming_membership _ "c" 0 10 "Hypes" "Ascending" 0 _ _ _ hp hf⟩

/-- C10: a record whose rating is null is excluded from every admissible
output of `filter_data`, for every search string, rating range (including
the widest range) and minimum rating count, because a null rating fails the
range comparisons. -/
theorem null_rating_excluded
    (df : List GameRecord) (search : String) (rating_range : ℚ × ℚ)
    (min_count : Nat) (sort_by order : String) (out : List GameRecord)
    (r : GameRecord)
    (hout : filter_data df search rating_range min_count sort_by order out)
    (hnull : r.rating = none) :
    r ∉ out := by
  obtain ⟨pat, hpat, hperm, hsort⟩ := hout
  intro hmem
  have hmem' : r ∈ df.filter
      (popularRowPred pat rating_range.1 rating_range.2 min_count) :=
    hperm.mem_iff.mpr hmem
  have hpred := (List.mem_filter.mp hmem').2
  simp [popularRowPred, hnull] at hpred

/-- C10 witness: a snapshot containing a null-rated record, filtered with an
empty search, the widest rating range `[0, 100]` and minimum count 0. -/
theorem null_rating_excluded_witness :
    filter_data [⟨9, "nr", "", none, 50, "", 0, 0, 0⟩] "" (0, 100) 0
      "rating_count" "ASC" []
    ∧ (⟨9, "nr", "", none, 50, "", 0, 0, 0⟩ : GameRecord).rating = none
    ∧ (⟨9, "nr", "", none, 50, "", 0, 0, 0⟩ : GameRecord) ∉ ([] : List GameRecord) :=
  have hf : filter_data [⟨9, "nr", "", none, 50, "", 0, 0, 0⟩] "" (0, 100) 0
      "rating_count" "ASC" [] :=
    ⟨[], by decide, by decide, by decide⟩
  ⟨hf, rfl, null_rating_excluded _ "" (0, 100) 0 "rating_count" "ASC" _ _ hf rfl⟩

/-- C4 counterexample: two records that both match the filters and are tied
on the sort key enter the filter in the order `tieA, tieB`, yet the reversed
sequence `[tieB, tieA]` is an admissible output of `filter_data` — the
polars sort contract without `maintain_order` does not preserve the input
order of tied records, so the sort is not stable. -/
theorem filter_sort_unstable_cex :
    filter_data [⟨1, "aa", "", some 10, 7, "", 0, 0, 0⟩,
        ⟨2, "bb", "", some 20, 7, "", 0, 0, 0⟩] "" (0, 100) 0
      "rating_count" "ASC"
      [⟨2, "bb", "", some 20, 7, "", 0, 0, 0⟩, ⟨1, "aa", "", some 10, 7, "", 0, 0, 0⟩]
    ∧ ([⟨1, "aa", "", some 10, 7, "", 0, 0, 0⟩,
        ⟨2, "bb", "", some 20, 7, "", 0, 0, 0⟩] : List GameRecord).filter
        (popularRowPred [] 0 100 0)
      = [⟨1, "aa", "", some 10, 7, "", 0, 0, 0⟩, ⟨2, "bb", "", some 20, 7, "", 0, 0, 0⟩]
    ∧ (⟨1, "aa", "", some 10, 7, "", 0, 0, 0⟩ : GameRecord).rating_count
      = (⟨2, "bb", "", some 20, 7, "", 0, 0, 0⟩ : GameRecord).rating_count
    ∧ (⟨1, "aa", "", some 10, 7, "", 0, 0, 0⟩ : GameRecord)
      ≠ (⟨2, "bb", "", some 20, 7, "", 0, 0, 0⟩ : GameRecord) :=
  ⟨⟨[], by decide, by decide, by decide⟩, by decide, by decide, by decide⟩

/-- C4 (amended): the sorts inside `filter_data` and `filter_upcoming_data`
guarantee only a permutation of the matching records ordered by the sort
key; the relative order of records with equal sort keys is unspecified.  In
particular, whenever the sort key is injective on the snapshot the output
sequence is uniquely determined. -/
theorem filter_sort_unique :
    (∀ (df : List GameRecord) (search : String) (rr : ℚ × ℚ) (mc : Nat)
        (sort_by order : String) (out out' : List GameRecord),
      filter_data df search rr mc sort_by order out →
      filter_data df search rr mc sort_by order out' →
      (∀ a ∈ df, ∀ b ∈ df, popularSortLeB sort_by a b = true →
        popularSortLeB sort_by b a = true → a = b) →
      out = out')
    ∧ (∀ (df : List GameRecord) (search : String) (mn mx : Nat)
        (sort_by order : String) (today : Int) (out out' : List GameRecord),
      filter_upcoming_data df search mn mx sort_by order today out →
      filter_upcoming_data df search mn mx sort_by order today out' →
      (∀ a ∈ df, ∀ b ∈ df, upcomingSortLeB sort_by a b = true →
        upcomingSortLeB sort_by b a = true → a = b) →
      out = out') := by
  constructor
  · intro df search rr mc sort_by order out out' hout hout' hanti
    obtain ⟨pat, hpat, hperm, hsort⟩ := hout
    obtain ⟨pat', hpat', hperm', hsort'⟩ := hout'
    rw [hpat] at hpat'
    injection hpat' with hpe
    subst hpe
    have hoo : out.Perm out' := hperm.symm.trans hperm'
    refine sorted_perm_eq out out' hoo hsort hsort' ?_
    intro x hx y hy hxy hyx
    have hx' : x ∈ df :=
      (List.mem_filter.mp (hperm.mem_iff.mpr hx)).1
    have hy' : y ∈ df :=
      (List.mem_filter.mp (hperm.mem_iff.mpr hy)).1
    by_cases hord : order = "ASC" <;> simp [dirLe, hord] at hxy hyx
    · exact hanti x hx' y hy' hxy hyx
    · exact hanti x hx' y hy' hyx hxy
  · intro df search mn mx sort_by order today out out' hout hout' hanti
    obtain ⟨pat, hpat, hperm, hsort⟩ := hout
    obtain ⟨pat', hpat', hperm', hsort'⟩ := hout'
    rw [hpat] at hpat'
    injection hpat' with hpe
    subst hpe
    have hoo : out.Perm out' := hperm.symm.trans hperm'
    refine sorted_perm_eq out out' hoo hsort hsort' ?_
    intro x hx y hy hxy hyx
    have hx' : x ∈ df :=
      (List.mem_filter.mp (hperm.mem_iff.mpr hx)).1
    have hy' : y ∈ df :=
      (List.mem_filter.mp (hperm.mem_iff.mpr hy)).1
    by_cases hord : order = "Descending" <;> simp [dirLe, hord] at hxy hyx
    · exact hanti x hx' y hy' hyx hxy
    · exact hanti x hx' y hy' hxy hyx

/-- C4 witness: snapshots on which the sort keys are injective, for both
entry points. -/
theorem filter_sort_unique_witness :
    (filter_data [⟨1, "aa", "", some 10, 1, "", 0, 0, 0⟩,
        ⟨2, "bb", "", some 20, 2, "", 0, 0, 0⟩] "" (0, 100) 0
        "rating_count" "ASC"
        [⟨1, "aa", "", some 10, 1, "", 0, 0, 0⟩, ⟨2, "bb", "", some 20, 2, "", 0, 0, 0⟩]
      ∧ (∀ a ∈ [(⟨1, "aa", "", some 10, 1, "", 0, 0, 0⟩ : GameRecord),
            ⟨2, "bb", "", some 20, 2, "", 0, 0, 0⟩],
          ∀ b ∈ [(⟨1, "aa", "", some 10, 1, "", 0, 0, 0⟩ : GameRecord),
            ⟨2, "bb", "", some 20, 2, "", 0, 0, 0⟩],
          popularSortLeB "rating_count" a b = true →
          popularSortLeB "rating_count" b a = true → a = b)
      ∧ ([⟨1, "aa", "", some 10, 1, "", 0, 0, 0⟩,
          ⟨2, "bb", "", some 20, 2, "", 0, 0, 0⟩] : List GameRecord)
        = [⟨1, "aa", "", some 10, 1, "", 0, 0, 0⟩, ⟨2, "bb", "", some 20, 2, "", 0, 0, 0⟩])
    ∧ (filter_upcoming_data [⟨3, "cc", "", some 5, 0, "", 50, 3, 0⟩] "" 0 10
        "Hypes" "Ascending" 0 [⟨3, "cc", "", some 5, 0, "", 50, 3, 0⟩]
      ∧ (∀ a ∈ [(⟨3, "cc", "", some 5, 0, "", 50, 3, 0⟩ : GameRecord)],
          ∀ b ∈ [(⟨3, "cc", "", some 5, 0, "", 50, 3, 0⟩ : GameRecord)],
          upcomingSortLeB "Hypes" a b = true →
          upcomingSortLeB "Hypes" b a = true → a = b)
      ∧ ([⟨3, "cc", "", some 5, 0, "", 50, 3, 0⟩] : List GameRecord)
        = [⟨3, "cc", "", some 5, 0, "", 50, 3, 0⟩]) :=
  have hf : filter_data [⟨1, "aa", "", some 10, 1, "", 0, 0, 0⟩,
      ⟨2, "bb", "", some 20, 2, "", 0, 0, 0⟩] "" (0, 100) 0
      "rating_count" "ASC"
      [⟨1, "aa", "", some 10, 1, "", 0, 0, 0⟩, ⟨2, "bb", "", some 20, 2, "", 0, 0, 0⟩] :=
    ⟨[], by decide, by decide, by decide⟩
  have ha : ∀ a ∈ [(⟨1, "aa", "", some 10, 1, "", 0, 0, 0⟩ : GameRecord),
      ⟨2, "bb", "", some 20, 2, "", 0, 0, 0⟩],
      ∀ b ∈ [(⟨1, "aa", "", some 10, 1, "", 0, 0, 0⟩ : GameRecord),
        ⟨2, "bb", "", some 20, 2, "", 0, 0, 0⟩],
      popularSortLeB "rating_count" a b = true →
      popularSortLeB "rating_count" b a = true → a = b := by decide
  have hfu : filter_upcoming_data [⟨3, "cc", "", some 5, 0, "", 50, 3, 0⟩] "" 0 10
      "Hypes" "Ascending" 0 [⟨3, "cc", "", some 5, 0, "", 50, 3, 0⟩] :=
    ⟨[], by decide, by decide, by decide⟩
  have hau : ∀ a ∈ [(⟨3, "cc", "", some 5, 0, "", 50, 3, 0⟩ : GameRecord)],
      ∀ b ∈ [(⟨3, "cc", "", some 5, 0, "", 50, 3, 0⟩ : GameRecord)],
      upcomingSortLeB "Hypes" a b = true →
      upcomingSortLeB "Hypes" b a = true → a = b := by decide
  ⟨⟨hf, ha, filter_sort_unique.1 _ "" (0, 100) 0 "rating_count" "ASC" _ _ hf hf ha⟩,
    ⟨hfu, hau, filter_sort_unique.2 _ "" 0 10 "Hypes" "Ascending" 0 _ _ hfu hfu hau⟩⟩

/-- C9 counterexample: `filter_upcoming_data` consults the current date, so
two calls with the same snapshot and the same parameter values return
different sequences when made on different days (here: before and after the
record's release date) — the entry point is not deterministic in its
explicit inputs alone. -/
theorem filter_upcoming_date_cex :
    filter_upcoming_data [⟨4, "ee", "", some 1, 1, "", 10, 2, 0⟩] "" 0 10
      "Hypes" "Ascending" 5 [⟨4, "ee", "", some 1, 1, "", 10, 2, 0⟩]
    ∧ filter_upcoming_data [⟨4, "ee", "", some 1, 1, "", 10, 2, 0⟩] "" 0 10
      "Hypes" "Ascending" 15 []
    ∧ ([⟨4, "ee", "", some 1, 1, "", 10, 2, 0⟩] : List GameRecord) ≠ [] :=
  ⟨⟨[], by decide, by decide, by decide⟩,
    ⟨[], by decide, by decide, by decide⟩, by decide⟩

/-- C9 (amended): both entry points are pure apart from
`filter_upcoming_data` reading the current date; given the same snapshot and
parameter values — and, for `filter_upcoming_data`, the same current date —
any two admissible outputs contain exactly the same records (they are
permutations of each other; only the order of sort-key ties is left open by
the sort contract). -/
theorem filter_entry_points_deterministic :
    (∀ (df : List GameRecord) (search : String) (rr : ℚ × ℚ) (mc : Nat)
        (sort_by order : String) (out out' : List GameRecord),
      filter_data df search rr mc sort_by order out →
      filter_data df search rr mc sort_by order out' → out.Perm out')
    ∧ (∀ (df : List GameRecord) (search : String) (mn mx : Nat)
        (sort_by order : String) (today : Int) (out out' : List GameRecord),
      filter_upcoming_data df search mn mx sort_by order today out →
      filter_upcoming_data df search mn mx sort_by order today out' →
      out.Perm out') := by
  constructor
  · intro df search rr mc sort_by order out out' hout hout'
    obtain ⟨pat, hpat, hperm, hsort⟩ := hout
    obtain ⟨pat', hpat', hperm', hsort'⟩ := hout'
    rw [hpat] at hpat'
    injection hpat' with hpe
    subst hpe
    exact hperm.symm.trans hperm'
  · intro df search mn mx sort_by order today out out' hout hout'
    obtain ⟨pat, hpat, hperm, hsort⟩ := hout
    obtain ⟨pat', hpat', hperm', hsort'⟩ := hout'
    rw [hpat] at hpat'
    injection hpat' with hpe
    subst hpe
    exact hperm.symm.trans hperm'

/-- C9 witness: concrete repeated calls of both entry points. -/
theorem filter_entry_points_deterministic_witness :
    (filter_data [⟨1, "aa", "", some 10, 1, "", 0, 0, 0⟩] "" (0, 100) 0
        "rating" "DESC" [⟨1, "aa", "", some 10, 1, "", 0, 0, 0⟩]
      ∧ ([⟨1, "aa", "", some 10, 1, "", 0, 0, 0⟩] : List GameRecord).Perm
          [⟨1, "aa", "", some 10, 1, "", 0, 0, 0⟩])
    ∧ (filter_upcoming_data [⟨4, "ee", "", some 1, 1, "", 10, 2, 0⟩] "" 0 10
        "Release Date" "Descending" 5 [⟨4, "ee", "", some 1, 1, "", 10, 2, 0⟩]
      ∧ ([⟨4, "ee", "", some 1, 1, "", 10, 2, 0⟩] : List GameRecord).Perm
          [⟨4, "ee", "", some 1, 1, "", 10, 2, 0⟩]) :=
  have hf : filter_data [⟨1, "aa", "", some 10, 1, "", 0, 0, 0⟩] "" (0, 100) 0
      "rating" "DESC" [⟨1, "aa", "", some 10, 1, "", 0, 0, 0⟩] :=
    ⟨[], by decide, by decide, by decide⟩
  have hfu : filter_upcoming_data [⟨4, "ee", "", some 1, 1, "", 10, 2, 0⟩] "" 0 10
      "Release Date" "Descending" 5 [⟨4, "ee", "", some 1, 1, "", 10, 2, 0⟩] :=
    ⟨[], by decide, by decide, by decide⟩
  ⟨⟨hf, filter_entry_points_deterministic.1 _ "" (0, 100) 0 "rating" "DESC" _ _ hf hf⟩,
    ⟨hfu, filter_entry_points_deterministic.2 _ "" 0 10 "Release Date" "Descending" 5 _ _ hfu hfu⟩⟩
